import Mathlib

/-!
Formal model of the Aurora finance chat endpoint
(`AI-Finance-Tracking-Website/api/chat.ts`), a shallow embedding of the
request handler, its web-search cache, safety filter, answer generator and
heuristic responder, together with proofs about the specified behaviour.

Conventions of the embedding:
* JavaScript `Map` (insertion ordered, unique keys) is modelled as an
  association list in insertion order (oldest entry first).
* `Date.now()` is passed explicitly as a `Nat` argument; JS number
  subtraction `now - t > TTL` agrees with truncated `Nat` subtraction here,
  because both sides classify `now < t` as "not expired".
* Network and database calls are oracles carried by an `Env` record: each
  connector in the source absorbs every failure into a documented default,
  so its observable outcome is a pure value chosen by the environment.
* Monetary and confidence numbers are exact rationals.
-/

/-- `s.toLowerCase()`, character-wise (kernel-evaluable form). -/
def strLower (s : String) : String :=
  String.mk (s.data.map Char.toLower)

/-- `s.toUpperCase()`, character-wise (kernel-evaluable form). -/
def strUpper (s : String) : String :=
  String.mk (s.data.map Char.toUpper)

/-- `s.trim()` (kernel-evaluable form). -/
def strTrim (s : String) : String :=
  String.mk (((s.data.dropWhile Char.isWhitespace).reverse.dropWhile Char.isWhitespace).reverse)

/-- JavaScript `String.prototype.startsWith` on explicit character lists. -/
def chPre : List Char → List Char → Bool
  | [], _ => true
  | _ :: _, [] => false
  | n :: ns, h :: hs => n == h && chPre ns hs

/-- Substring test on character lists (needle, then haystack). -/
def chInf (needle : List Char) : List Char → Bool
  | [] => chPre needle []
  | h :: hs => chPre needle (h :: hs) || chInf needle hs

/-- JavaScript `hay.includes(needle)`. -/
def includes (hay needle : String) : Bool :=
  chInf needle.data hay.data

/-- `needles.some((n) => hay.includes(n))`, the shape of every keyword
test in the source. -/
def anyIncl (hay : String) (needles : List String) : Bool :=
  needles.any (fun n => includes hay n)

/-- JavaScript regex word character class `\w`. -/
def isWordChar (c : Char) : Bool :=
  c.isAlphanum || c == '_'

/-- One candidate position of a case-insensitive `\b...\b` regex match. -/
def matchWordAt (h n : List Char) (i : Nat) : Bool :=
  ((h.drop i).take n.length == n) &&
  (decide (i = 0) || !isWordChar (h.getD (i - 1) ' ')) &&
  !isWordChar (h.getD (i + n.length) ' ')

/-- JavaScript `/\bNEEDLE\b/i.test(hay)`. -/
def testWordRegex (needle hay : String) : Bool :=
  (List.range (hay.data.length + 1)).any
    (fun i => matchWordAt (strLower hay).data (strLower needle).data i)

/-- `arr.filter((x, idx, a) => a.indexOf(x) === idx)`: keep the first
occurrence of each element. -/
def dedupFirst (l : List String) : List String :=
  l.foldl (fun acc x => if acc.contains x then acc else acc ++ [x]) []

/-! ## Data model (`chat.ts` lines 7–28) -/

/-- `interface ChatMessage` (role is `user` or `ai`). -/
structure ChatMessage where
  role : String
  text : String
deriving DecidableEq

/-- `interface ChatRequestBody`. `messages := none` models a body whose
`messages` field is missing or not an array. -/
structure ChatRequestBody where
  userId : Option String
  messages : Option (List ChatMessage)
deriving DecidableEq

/-- `interface WebSearchResult`. -/
structure WebSearchResult where
  title : String
  url : String
  snippet : Option String := none
deriving DecidableEq

/-- `interface AuroraAnswer`; optional fields stay optional. -/
structure AuroraAnswer where
  text : String
  confidence : Option ℚ := none
  sources : Option (List WebSearchResult) := none
  usedSearch : Option Bool := none
deriving DecidableEq

/-! ## Search cache (`chat.ts` lines 30–55) -/

/-- `SEARCH_TTL_MS = 5 * 60 * 1000`. -/
def SEARCH_TTL_MS : Nat := 5 * 60 * 1000

/-- `SEARCH_CACHE_LIMIT = 50`. -/
def SEARCH_CACHE_LIMIT : Nat := 50

/-- The value type of `searchCache`. -/
structure CacheEntry where
  timestamp : Nat
  results : List WebSearchResult
deriving DecidableEq

/-- The `searchCache` map, in insertion order (oldest first). -/
abbrev Cache := List (String × CacheEntry)

/-- `searchCache.get(k)`. -/
def mapGet (k : String) (m : Cache) : Option CacheEntry :=
  (m.find? (fun p => p.1 == k)).map (fun p => p.2)

/-- `searchCache.set(k, v)`: update in place when the key exists
(JS `Map.set` keeps the original insertion position), else append. -/
def mapSet (k : String) (v : CacheEntry) (m : Cache) : Cache :=
  if m.any (fun p => p.1 == k) then
    m.map (fun p => if p.1 == k then (k, v) else p)
  else
    m ++ [(k, v)]

/-- `searchCache.delete(k)`. -/
def mapDelete (k : String) (m : Cache) : Cache :=
  m.filter (fun p => !(p.1 == k))

/-- `searchCache.keys().next().value`: the oldest inserted key. -/
def firstKey (m : Cache) : Option String :=
  m.head?.map (fun p => p.1)

/-- `getCachedSearch` (lines 37–45): returns the hit (or `none`) and the
possibly-shrunk store; an entry older than the TTL is deleted lazily. -/
def getCachedSearch (query : String) (now : Nat) (cache : Cache) :
    Option (List WebSearchResult) × Cache :=
  match mapGet query cache with
  | none => (none, cache)
  | some entry =>
    if SEARCH_TTL_MS < now - entry.timestamp then
      (none, mapDelete query cache)
    else
      (some entry.results, cache)

/-- Lines 49–53 of `setCachedSearch`: when the store is at capacity,
remove the oldest entry. Faithful detail: the guard in the source is
`if (firstKey)`, which is falsy both for `undefined` and for the empty
string, so an oldest key `""` is NOT evicted. -/
def evictIfFull (cache : Cache) : Cache :=
  if SEARCH_CACHE_LIMIT ≤ cache.length then
    match firstKey cache with
    | some k => if k == "" then cache else mapDelete k cache
    | none => cache
  else cache

/-- `setCachedSearch` (lines 47–55): no-op on empty results, otherwise
evict when at capacity and insert the fresh entry. -/
def setCachedSearch (query : String) (results : List WebSearchResult)
    (now : Nat) (cache : Cache) : Cache :=
  if results.isEmpty then cache
  else
    mapSet query { timestamp := now, results := results }
      (evictIfFull cache)

/-! ## Safety filter and search gate (`chat.ts` lines 57–99) -/

/-- The sensitive-data blocklist of `isSearchSafe` (lines 59–68),
verbatim from the source. -/
def sensitiveBlocklist : List String :=
  ["password", "passcode", "social security", "ssn",
   "credit card", "card number", "cvv", "pin code"]

/-- `isSearchSafe` (lines 57–70): false when the lowercased question
contains any blocklisted term. -/
def isSearchSafe (question : String) : Bool :=
  !(sensitiveBlocklist.any (fun term => includes (strLower question) term))

/-- The trigger-word list of `shouldUseWebSearch` (lines 76–96). -/
def externalKeywords : List String :=
  ["news", "latest", "today", "current", "rate", "inflation", "recession",
   "market", "economy", "stock", "crypto", "yield", "tax law", "regulation",
   "what is", "who is", "define", "definition", "history of"]

/-- `shouldUseWebSearch` (lines 72–99): false on blank input, true when a
trigger word occurs in the lowercased question. -/
def shouldUseWebSearch (question : String) : Bool :=
  let q := strLower question
  if strTrim q == "" then false
  else externalKeywords.any (fun keyword => includes q keyword)

/-! ## Environment of oracles

Each upstream connector in the source absorbs every network, parsing or
credential failure into a documented default, so per request its
observable behaviour is exactly one value; the `Env` record supplies those
values. `fault` models an unexpected exception thrown inside the `try`
block of `handler` after validation (the catch-all of lines 223–234). -/

/-- A stock quote as produced by `getStockQuotes`. -/
structure StockQuote where
  price : Option ℚ := none
  currency : Option String := none
deriving DecidableEq

/-- One row of the `transactions` table; the handler only reads the
`category` field and the row count. -/
structure Transaction where
  category : Option String := none
deriving DecidableEq

/-- A financial-overview goal (mock profile, lines 265–268). -/
structure FinGoal where
  name : String
  target : ℚ
  progress : ℚ
deriving DecidableEq

/-- The `recentSummary` block of a profile. -/
structure RecentSummary where
  monthlyIncome : ℚ
  monthlyFixedCosts : ℚ
  avgDiscretionary : ℚ
  savingsRate : ℚ
deriving DecidableEq

/-- A user financial profile (lines 255–270). -/
structure FinProfile where
  userId : String
  currency : String
  recentSummary : RecentSummary
  goals : List FinGoal
deriving DecidableEq

/-- `getMockUserProfile` (lines 255–270), the deterministic default. -/
def getMockUserProfile (userId : String) : FinProfile :=
  { userId := userId
    currency := "USD"
    recentSummary :=
      { monthlyIncome := 5200, monthlyFixedCosts := 2800,
        avgDiscretionary := 900, savingsRate := 0.18 }
    goals :=
      [ { name := "Emergency fund", target := 10000, progress := 0.6 },
        { name := "Long-term investing", target := 50000, progress := 0.22 } ] }

/-- The request environment: configuration flags plus one oracle per
fallible upstream outcome. -/
structure Env where
  openAiKey : Option String := none
  bingConfigured : Bool := false
  alphavantageConfigured : Bool := false
  supabaseConfigured : Bool := false
  netSearch : String → List WebSearchResult := fun _ => []
  fxOutcome : List (String × ℚ) := []
  stockOutcome : List (String × StockQuote) := []
  cryptoOutcome : List (String × ℚ) := []
  profileOutcome : String → FinProfile := fun u => getMockUserProfile u
  txOutcome : String → List Transaction := fun _ => []
  llmContent : Option String := none
  now : Nat := 0
  fault : Bool := false

/-! ## Web search with cache (`chat.ts` lines 101–157) -/

/-- `performWebSearch` (lines 106–142): no credentials or any fetch
failure yields `[]` (failure is the oracle returning `[]`); at most five
processed results are returned. -/
def performWebSearch (env : Env) (query : String) : List WebSearchResult :=
  if env.bingConfigured then (env.netSearch query).take 5 else []

/-- Result of one `getWebResultsForQuestion` call: the returned results,
the cache afterwards, and how many network requests were issued to the
search provider. -/
structure SearchOutcome where
  results : List WebSearchResult
  cache : Cache
  netCalls : Nat
deriving DecidableEq

/-- `getWebResultsForQuestion` (lines 144–157): gate on credentials,
safety and trigger words; consult the cache; on a miss call the network
and cache a non-empty result. -/
def getWebResultsForQuestion (env : Env) (question : String) (now : Nat)
    (cache : Cache) : SearchOutcome :=
  if !env.bingConfigured then
    { results := [], cache := cache, netCalls := 0 }
  else if question == "" || !isSearchSafe question then
    { results := [], cache := cache, netCalls := 0 }
  else if !shouldUseWebSearch question then
    { results := [], cache := cache, netCalls := 0 }
  else
    let hit := getCachedSearch question now cache
    match hit.1 with
    | some cached => { results := cached, cache := hit.2, netCalls := 0 }
    | none =>
      let results := performWebSearch env question
      if !results.isEmpty then
        { results := results,
          cache := setCachedSearch question results now hit.2,
          netCalls := 1 }
      else
        { results := results, cache := hit.2, netCalls := 1 }

/-! ## Knowledge snippets (`chat.ts` lines 447–476) -/

/-- Budgeting bucket snippets (lines 451–456). -/
def kbBudgetSnips : List String :=
  ["Good budgeting often routes 20–30% of net income into savings and investing, with fixed costs kept below ~50%.",
   "Tracking spend by category (housing, food, transport, subscriptions) makes it easier to decide where to trim."]

/-- Investing bucket snippets (lines 458–463). -/
def kbInvestSnips : List String :=
  ["Diversification across low-cost ETFs is a common way to spread risk rather than betting on single names.",
   "Time in the market usually matters more than timing the market; short-term moves are hard to predict."]

/-- Crypto bucket snippet (lines 465–469). -/
def kbCryptoSnips : List String :=
  ["Crypto assets can be extremely volatile. Many guides suggest treating them as a small, higher-risk sleeve."]

/-- The fixed disclaimer always appended (lines 471–473). -/
def kbDisclaimer : String :=
  "Aurora is not a tax, legal, or investment advisor. Treat these outputs as educational guidance, not directives."

/-- `getKnowledgeSnippets` (lines 447–476). -/
def getKnowledgeSnippets (query : String) : List String :=
  let q := strLower query
  (if anyIncl q ["budget", "spend", "saving"] then kbBudgetSnips else []) ++
  (if anyIncl q ["invest", "stock", "etf"] then kbInvestSnips else []) ++
  (if anyIncl q ["crypto"] then kbCryptoSnips else []) ++
  [kbDisclaimer]

/-! ## Heuristic responder (`chat.ts` lines 624–647) -/

/-- The generic default paragraph (lines 626–627). -/
def heuristicGenericText : String :=
  "Here\x27s a high-level perspective on your finances. I can help you break this down by accounts, categories, or time horizon if you like."

/-- The budget/spend paragraph (lines 629–631). -/
def heuristicBudgetText : String :=
  "Most people get the largest leverage by looking at their top 2–3 variable categories: often food, transport, and subscriptions. If you trim those by 10–15% while keeping rent and essentials stable, your budget usually feels better without feeling restrictive."

/-- The save/savings paragraph (lines 632–634). -/
def heuristicSaveText : String :=
  "A common pattern is to target a savings rate in the 15–25% range of net income, then adjust up or down based on stability and goals. We can look at your fixed costs and recent spending to see what level is realistic for you."

/-- The invest/stock/etf paragraph (lines 635–637). -/
def heuristicInvestText : String :=
  "Investing typically starts with building an emergency buffer, then allocating surplus into diversified, low-cost investments like broad-market ETFs. From there, you can decide how much risk to take based on your time horizon and volatility comfort."

/-- The runway/forecast paragraph (lines 638–640). -/
def heuristicRunwayText : String :=
  "Runway is essentially your liquid assets divided by your average monthly burn. If we keep your burn stable and increase savings, that runway extends. Small, persistent changes in discretionary categories compound into meaningful extra months."

/-- The crypto paragraph (lines 641–643). -/
def heuristicCryptoText : String :=
  "Crypto should usually be treated as a high-volatility sleeve in a broader plan. Many approaches keep it to a small percentage of total net worth, rebalanced occasionally, rather than relying on it for near-term goals."

/-- `basicHeuristicAnswer` (lines 624–647): deterministic keyword lookup;
always confidence `0.78`, never sources, never a `usedSearch` flag. -/
def basicHeuristicAnswer (question : String) : AuroraAnswer :=
  { text :=
      (let lower := strLower question
       if anyIncl lower ["budget", "spend"] then heuristicBudgetText
       else if anyIncl lower ["save", "savings"] then heuristicSaveText
       else if anyIncl lower ["invest", "stock", "etf"] then heuristicInvestText
       else if anyIncl lower ["runway", "forecast"] then heuristicRunwayText
       else if anyIncl lower ["crypto"] then heuristicCryptoText
       else heuristicGenericText),
    confidence := some 0.78 }

/-! ## Answer generator (`chat.ts` lines 480–620) -/

/-- The default user id (line 173). -/
def anonymousUserId : String := "anonymous"

/-- The context record passed to `generateAuroraAnswer` (lines 480–490). -/
structure GenContext where
  question : String
  messages : List ChatMessage := []
  userProfile : FinProfile := getMockUserProfile anonymousUserId
  fxRates : List (String × ℚ) := []
  stockQuotes : List (String × StockQuote) := []
  cryptoPrices : List (String × ℚ) := []
  transactions : List Transaction := []
  kbSnippets : List String := []
  webResults : List WebSearchResult := []

/-- The default question used when everything else is falsy (line 495). -/
def defaultQuestion : String := "Explain my finances in simple terms."

/-- Lines 492–495: `context.question || lastUserText || default`
(JS `||`, so the empty string falls through). -/
def effectiveQuestion (ctx : GenContext) : String :=
  if ctx.question != "" then ctx.question
  else
    match (ctx.messages.filter (fun m => m.role == "user")).getLast? with
    | some m => if m.text != "" then m.text else defaultQuestion
    | none => defaultQuestion

/-- `generateAuroraAnswer` (lines 480–620). Without an OpenAI key the
heuristic responder answers (line 497–500). With a key, the prompt built
in lines 502–583 is consumed only by the external model, which is the
oracle `env.llmContent`: `none` models a fetch error, a non-2xx status or
a missing content field, all of which fall back to the heuristic, as does
empty content (line 606); otherwise the model text is returned with
confidence `0.92` and up to four web sources (lines 610–615). -/
def generateAuroraAnswer (env : Env) (ctx : GenContext) : AuroraAnswer :=
  match env.openAiKey with
  | none => basicHeuristicAnswer (effectiveQuestion ctx)
  | some _ =>
    match env.llmContent with
    | none => basicHeuristicAnswer (effectiveQuestion ctx)
    | some content =>
      if content == "" then basicHeuristicAnswer (effectiveQuestion ctx)
      else
        { text := content
          confidence := some 0.92
          sources :=
            if !ctx.webResults.isEmpty then some (ctx.webResults.take 4)
            else none
          usedSearch := some (!ctx.webResults.isEmpty) }

/-! ## Upstream connectors (`chat.ts` lines 237–443)

Every connector resolves to its documented default when its credential is
absent; with credentials, the processed network/database outcome is the
corresponding `Env` oracle (failures are the oracle returning the same
default the source produces in its `catch`). -/

/-- `getUserFinancialProfile` (lines 272–313). -/
def getUserFinancialProfile (env : Env) (userId : String) : FinProfile :=
  if env.supabaseConfigured then env.profileOutcome userId
  else getMockUserProfile userId

/-- `getRecentTransactions` (lines 315–335): at most `limit` rows. -/
def getRecentTransactions (env : Env) (userId : String) (limit : Nat) :
    List Transaction :=
  if env.supabaseConfigured then (env.txOutcome userId).take limit else []

/-- `getFxRates` (lines 339–368). -/
def getFxRates (env : Env) (_base : String) (_symbols : List String) :
    List (String × ℚ) :=
  if env.alphavantageConfigured then env.fxOutcome else []

/-- `getStockQuotes` (lines 370–402). -/
def getStockQuotes (env : Env) (symbols : List String) :
    List (String × StockQuote) :=
  if !env.alphavantageConfigured || symbols.isEmpty then []
  else env.stockOutcome

/-- The CoinGecko id of BTC. -/
def bitcoinId : String := "bitcoin"

/-- The CoinGecko id of ETH. -/
def ethereumId : String := "ethereum"

/-- `COINGECKO_IDS` (lines 404–407). -/
def coingeckoIdOf (sym : String) : Option String :=
  if sym == "BTC" then some bitcoinId
  else if sym == "ETH" then some ethereumId
  else none

/-- `getCryptoPrices` (lines 409–443). -/
def getCryptoPrices (env : Env) (symbols : List String)
    (_vsCurrency : String) : List (String × ℚ) :=
  let ids := dedupFirst ((symbols.map (fun s => strUpper s)).filterMap coingeckoIdOf)
  if ids.isEmpty then [] else env.cryptoOutcome

/-! ## Request handler (`chat.ts` lines 159–235) -/

/-- The inbound request body. `malformedStr` is a string body on which
`JSON.parse` throws; `parsedStr v` is a string body parsing to `v`
(`none` = JSON `null`); `direct v` is a non-string body (`none` models a
missing/null body). -/
inductive ReqBody where
  | malformedStr : ReqBody
  | parsedStr : Option ChatRequestBody → ReqBody
  | direct : Option ChatRequestBody → ReqBody
deriving DecidableEq

/-- An inbound HTTP request. -/
structure Req where
  method : String
  body : ReqBody
deriving DecidableEq

/-- Line 166–167: `typeof req.body === 'string' ? JSON.parse(req.body)
: req.body`; the parse failure is the thrown exception. -/
def parseBody : ReqBody → Except Unit (Option ChatRequestBody)
  | .malformedStr => .error ()
  | .parsedStr v => .ok v
  | .direct v => .ok v

/-- The messages list a request carries, when its body is valid enough to
expose one. -/
def reqMessages (req : Req) : Option (List ChatMessage) :=
  match parseBody req.body with
  | .error _ => none
  | .ok none => none
  | .ok (some b) => b.messages

/-- The `usedLiveData` block of the success envelope (lines 216–221). -/
structure UsedLiveData where
  fxSymbols : List String
  stocks : List String
  crypto : List String
  transactionCount : Nat
deriving DecidableEq

/-- The JSON response body: a record of the optional fields any of the
four `res.json(...)` calls may set. -/
structure ResponseBody where
  error : Option String := none
  text : Option String := none
  confidence : Option ℚ := none
  fallback : Option Bool := none
  sources : Option (List WebSearchResult) := none
  usedSearch : Option Bool := none
  usedLiveData : Option UsedLiveData := none
deriving DecidableEq

/-- An HTTP response: status, optional `Allow` header, JSON body. -/
structure HttpResponse where
  status : Nat
  allow : Option String := none
  body : ResponseBody
deriving DecidableEq

/-- The POST literal. -/
def postVerb : String := "POST"

/-- The FX base currency argument (line 190). -/
def usdBase : String := "USD"

/-- The crypto vs-currency argument (line 192). -/
def usdVsCurrency : String := "usd"

/-- Error text of the 405 response (line 162). -/
def methodNotAllowedMsg : String := "Method Not Allowed"

/-- Error text of the 400 response (line 170). -/
def invalidBodyMsg : String := "Invalid request body: missing messages"

/-- The empty question used by the catch-all fallback (line 226). -/
def emptyQuestion : String := ""

/-- Line 162: `res.status(405).json({error: ...})` with `Allow: POST`. -/
def methodNotAllowedResponse : HttpResponse :=
  { status := 405, allow := some postVerb,
    body := { error := some methodNotAllowedMsg } }

/-- Line 170: `res.status(400).json({error: ...})`. -/
def badRequestResponse : HttpResponse :=
  { status := 400, body := { error := some invalidBodyMsg } }

/-- Lines 211–222: the success envelope. -/
def successEnvelope (answer : AuroraAnswer) (live : UsedLiveData) :
    HttpResponse :=
  { status := 200
    body :=
      { text := some answer.text
        confidence := some (answer.confidence.getD 0.9)
        sources := some (answer.sources.getD [])
        usedSearch := some (answer.usedSearch.getD false)
        usedLiveData := some live } }

/-- Lines 223–234: the catch-all envelope — still HTTP 200, built from
`basicHeuristicAnswer('')` with a `fallback: true` marker. -/
def fallbackEnvelope : HttpResponse :=
  { status := 200
    body :=
      { text := some (basicHeuristicAnswer emptyQuestion).text
        confidence := some ((basicHeuristicAnswer emptyQuestion).confidence.getD 0.7)
        fallback := some true
        sources := some ((basicHeuristicAnswer emptyQuestion).sources.getD [])
        usedSearch := some ((basicHeuristicAnswer emptyQuestion).usedSearch.getD false) } }

/-- Lines 179–181: detect stock tickers with `/\bSYM\b/i`. -/
def detectStockSymbols (question : String) : List String :=
  (["AAPL", "TSLA", "MSFT"] : List String).filter
    (fun t => testWordRegex t question)

/-- Lines 183–185: detect crypto keywords by lowercase inclusion. -/
def detectCryptoSymbols (qLower : String) : List String :=
  (if anyIncl qLower ["btc", "bitcoin"] then ["BTC"] else []) ++
  (if anyIncl qLower ["eth", "ethereum"] then ["ETH"] else [])

/-- Steps 2–6 of the handler on a validated body (lines 173–222):
extraction, fan-out, generation, serialization. -/
def handleValidBody (env : Env) (body : ChatRequestBody)
    (ms : List ChatMessage) (cache : Cache) : HttpResponse × Cache :=
  let userId := body.userId.getD anonymousUserId
  let lastUser := ms.reverse.find? (fun m => m.role == "user")
  let question :=
    match lastUser with
    | some m => m.text
    | none =>
      match ms.getLast? with
      | some m => m.text
      | none => ""
  let qLower := strLower question
  let stockSymbols := detectStockSymbols question
  let cryptoSymbols := detectCryptoSymbols qLower
  let userProfile := getUserFinancialProfile env userId
  let fxRates := getFxRates env usdBase ["EUR", "GBP"]
  let stockQuotes := getStockQuotes env stockSymbols
  let cryptoPrices := getCryptoPrices env cryptoSymbols usdVsCurrency
  let transactions := getRecentTransactions env userId 25
  let so := getWebResultsForQuestion env question env.now cache
  let kbSnippets := getKnowledgeSnippets question
  let answer := generateAuroraAnswer env
    { question := question, messages := ms, userProfile := userProfile,
      fxRates := fxRates, stockQuotes := stockQuotes,
      cryptoPrices := cryptoPrices, transactions := transactions,
      kbSnippets := kbSnippets, webResults := so.results }
  (successEnvelope answer
    { fxSymbols := fxRates.map Prod.fst
      stocks := stockQuotes.map Prod.fst
      crypto := cryptoPrices.map Prod.fst
      transactionCount := transactions.length }, so.cache)

/-- The `try` block of the handler (lines 165–222): JSON parsing,
validation, and — via `env.fault` — any unexpected exception thrown after
validation; `.error ()` is an exception reaching the `catch`. -/
def handlerInner (env : Env) (req : Req) (cache : Cache) :
    Except Unit (HttpResponse × Cache) :=
  match parseBody req.body with
  | .error _ => .error ()
  | .ok none => .ok (badRequestResponse, cache)
  | .ok (some body) =>
    match body.messages with
    | none => .ok (badRequestResponse, cache)
    | some ms =>
      if ms.isEmpty then .ok (badRequestResponse, cache)
      else if env.fault then .error ()
      else .ok (handleValidBody env body ms cache)

/-- `handler` (lines 159–235): 405 on a non-POST method, otherwise the
`try` block with the catch-all fallback of lines 223–234. -/
def handler (env : Env) (req : Req) (cache : Cache) :
    HttpResponse × Cache :=
  if req.method != "POST" then (methodNotAllowedResponse, cache)
  else
    match handlerInner env req cache with
    | .ok out => out
    | .error _ => (fallbackEnvelope, cache)

/-! ## Cache operation sequences

The abstract client-visible interface of the cache component: any
interleaving of lookups and insertions, starting from the empty store the
module initialises. -/

/-- One cache operation: `get(query)` at a time, or `put(query, results)`
at a time. -/
inductive CacheOp where
  | get : String → Nat → CacheOp
  | put : String → List WebSearchResult → Nat → CacheOp
deriving DecidableEq

/-- The query string of an operation. -/
def opQuery : CacheOp → String
  | .get q _ => q
  | .put q _ _ => q

/-- Run one operation against the store. -/
def applyOp (cache : Cache) : CacheOp → Cache
  | .get q now => (getCachedSearch q now cache).2
  | .put q rs now => setCachedSearch q rs now cache

/-- Run a sequence of operations left to right. -/
def applyOps (ops : List CacheOp) (cache : Cache) : Cache :=
  ops.foldl applyOp cache

/-- The claimed store invariant: bounded size and no empty result sets. -/
def cacheWellFormed (c : Cache) : Prop :=
  c.length ≤ SEARCH_CACHE_LIMIT ∧ ∀ p ∈ c, p.2.results ≠ []

instance (c : Cache) : Decidable (cacheWellFormed c) := by
  unfold cacheWellFormed
  infer_instance

/-- Auxiliary invariant: all stored keys are non-empty strings. This
holds for every store the program itself builds, because
`getWebResultsForQuestion` only caches a non-empty question. -/
def cacheKeysNonempty (c : Cache) : Prop :=
  ∀ p ∈ c, p.1 ≠ ""

/-- The keyword vocabulary of the heuristic responder branches
(lines 629–644). -/
def heuristicKeywords : List String :=
  ["budget", "spend", "save", "savings", "invest", "stock", "etf",
   "runway", "forecast", "crypto"]

/-! ## Concrete instances used in witnesses and counterexamples -/

/-- A sample search result. -/
def exResult : WebSearchResult := { title := "t", url := "u" }

/-- Distinct non-empty cache keys. -/
def numKey (i : Nat) : String := "k" ++ toString i

/-- A searchable question (trigger words, no blocked term). -/
def exNewsQ : String := "latest news"

/-- A question containing the claimed blocklist term PIN. -/
def exPinQuestion : String := "what is my pin"

/-- A question containing the blocklisted term password. -/
def exPwdQuestion : String := "what is my password today"

/-- A question containing the budget keyword. -/
def exBudgetQ : String := "help with my budget"

/-- The all-defaults environment: no credentials at all. -/
def exAnyEnv : Env := {}

/-- Search credentials configured; the provider returns no results. -/
def exSearchEnv : Env := { bingConfigured := true }

/-- Search credentials configured; the provider returns one result. -/
def exCachingEnv : Env :=
  { bingConfigured := true, netSearch := fun _ => [exResult] }

/-- An environment whose request processing throws unexpectedly. -/
def exEnvFault : Env := { fault := true }

/-- A well-formed POST request with one user message. -/
def exValidReq : Req :=
  { method := "POST",
    body := ReqBody.direct
      (some { userId := none,
              messages := some [{ role := "user", text := "hello" }] }) }

/-- A POST request whose string body is not valid JSON. -/
def exBadJsonReq : Req :=
  { method := "POST", body := ReqBody.malformedStr }

/-- A POST request with an empty messages array. -/
def exEmptyMsgsReq : Req :=
  { method := "POST",
    body := ReqBody.direct (some { userId := none, messages := some [] }) }

/-- A generator context asking a budget question. -/
def exCtx : GenContext := { question := exBudgetQ }

/-- 51 `put` operations with non-empty results whose first key is the
empty string: the eviction guard of the source treats it as falsy. -/
def exFloodOps : List CacheOp :=
  CacheOp.put emptyQuestion [exResult] 0 ::
    (List.range 50).map (fun i => CacheOp.put (numKey i) [exResult] 0)

/-- A benign operation sequence with non-empty keys. -/
def exGoodOps : List CacheOp :=
  [CacheOp.put (numKey 1) [exResult] 0, CacheOp.get (numKey 1) 1]

/-- Oldest entry of a full store. -/
def exHeadEntry : String × CacheEntry :=
  (numKey 0, { timestamp := 0, results := [exResult] })

/-- The 49 younger entries of a full store. -/
def exTailCache : Cache :=
  (List.range 49).map
    (fun i => (numKey (i + 1), { timestamp := 0, results := [exResult] }))

/-- A one-entry store whose entry was written at time 0. -/
def exExpiredCache : Cache :=
  [(exNewsQ, { timestamp := 0, results := [exResult] })]

/-- The blocklist as the specification words it: password, card number,
SSN, CVV, PIN. Stated from the spec for comparison with the source list
`sensitiveBlocklist`; the two differ on the last term (`pin` vs
`pin code`). -/
def claimedBlocklist : List String :=
  ["password", "card number", "ssn", "cvv", "pin"]

/-! ## Association-list map lemmas -/

theorem find?_append_of_none {α : Type} {p : α → Bool} {l1 l2 : List α}
    (h : l1.find? p = none) : (l1 ++ l2).find? p = l2.find? p := by
  induction l1 with
  | nil => rfl
  | cons a t ih =>
    cases hb : p a with
    | true => simp [List.find?_cons, hb] at h
    | false =>
      simp only [List.find?_cons, hb] at h
      simp only [List.cons_append, List.find?_cons, hb]
      exact ih h

theorem mapGet_eq_none_of_not_mem_keys {k : String} {m : Cache}
    (h : k ∉ m.map Prod.fst) : mapGet k m = none := by
  unfold mapGet
  rw [List.find?_eq_none.mpr]
  · rfl
  · intro p hp hbeq
    exact h (List.mem_map.mpr ⟨p, hp, by simpa using hbeq⟩)

theorem mapGet_mapDelete_self (k : String) (m : Cache) :
    mapGet k (mapDelete k m) = none := by
  unfold mapGet mapDelete
  rw [List.find?_eq_none.mpr]
  · rfl
  · intro p hp
    have h2 := (List.mem_filter.mp hp).2
    simp only [Bool.not_eq_true'] at h2
    simp [h2]

theorem find?_mapSetFn_self (q : String) (v : CacheEntry) (m : Cache)
    (hany : m.any (fun p => p.1 == q) = true) :
    (m.map (fun p => if p.1 == q then (q, v) else p)).find?
      (fun p => p.1 == q) = some (q, v) := by
  induction m with
  | nil => simp at hany
  | cons p t ih =>
    cases hb : (p.1 == q) with
    | true =>
      simp only [List.map_cons, if_pos hb, List.find?_cons]
      simp
    | false =>
      simp only [List.any_cons, hb, Bool.false_or] at hany
      simp only [List.map_cons, hb, Bool.false_eq_true, if_neg,
        not_false_iff, List.find?_cons]
      simpa [hb] using ih hany

theorem mapGet_mapSet_self (k : String) (v : CacheEntry) (m : Cache) :
    mapGet k (mapSet k v m) = some v := by
  unfold mapGet mapSet
  cases hany : m.any (fun p => p.1 == k) with
  | true =>
    rw [if_pos rfl, find?_mapSetFn_self k v m hany]
    rfl
  | false =>
    rw [if_neg (by simp)]
    have hnone : m.find? (fun p => p.1 == k) = none := by
      rw [List.find?_eq_none]
      intro x hx hbx
      have hx2 : m.any (fun p => p.1 == k) = true :=
        List.any_eq_true.mpr ⟨x, hx, hbx⟩
      rw [hany] at hx2
      exact absurd hx2 (by simp)
    rw [find?_append_of_none hnone]
    simp [List.find?_cons]

theorem find?_mapSetFn_ne (k q : String) (v : CacheEntry) (m : Cache)
    (hkq : k ≠ q) :
    (m.map (fun p => if p.1 == q then (q, v) else p)).find?
      (fun p => p.1 == k) = m.find? (fun p => p.1 == k) := by
  induction m with
  | nil => rfl
  | cons p t ih =>
    cases hb : (p.1 == q) with
    | true =>
      have hp1 : p.1 = q := by simpa using hb
      have hpk : (p.1 == k) = false := by simp [hp1, Ne.symm hkq]
      have hqk : (q == k) = false := by simp [Ne.symm hkq]
      rw [List.map_cons, if_pos hb]
      simp only [List.find?_cons, hqk, hpk]
      exact ih
    | false =>
      simp only [List.map_cons, hb, Bool.false_eq_true, if_neg,
        not_false_iff, List.find?_cons]
      cases hpk : (p.1 == k) with
      | true => rfl
      | false => exact ih

theorem mapGet_mapSet_ne (k q : String) (v : CacheEntry) (m : Cache)
    (hkq : k ≠ q) : mapGet k (mapSet q v m) = mapGet k m := by
  unfold mapGet mapSet
  cases hany : m.any (fun p => p.1 == q) with
  | true => rw [if_pos rfl, find?_mapSetFn_ne k q v m hkq]
  | false =>
    rw [if_neg (by simp)]
    have hqk : (q == k) = false := by simp [Ne.symm hkq]
    induction m with
    | nil => simp [List.find?_cons, hqk]
    | cons p t ih =>
      simp only [List.any_cons, Bool.or_eq_false_iff] at hany
      cases hpk : (p.1 == k) with
      | true => simp only [List.cons_append, List.find?_cons, hpk]
      | false =>
        simp only [List.cons_append, List.find?_cons, hpk]
        exact ih hany.2

theorem mapSet_length_le (k : String) (v : CacheEntry) (m : Cache) :
    (mapSet k v m).length ≤ m.length + 1 := by
  unfold mapSet
  split
  · simp
  · simp

theorem mem_mapSet (k : String) (v : CacheEntry) (m : Cache)
    (x : String × CacheEntry) (h : x ∈ mapSet k v m) :
    x = (k, v) ∨ x ∈ m := by
  unfold mapSet at h
  split at h
  · rcases List.mem_map.mp h with ⟨a, ha, hx⟩
    by_cases hb : (a.1 == k) = true
    · rw [if_pos hb] at hx
      exact Or.inl hx.symm
    · rw [if_neg hb] at hx
      exact Or.inr (hx ▸ ha)
  · rcases List.mem_append.mp h with h1 | h1
    · exact Or.inr h1
    · exact Or.inl (by simpa using h1)

theorem mapDelete_length_le (k : String) (m : Cache) :
    (mapDelete k m).length ≤ m.length :=
  List.length_filter_le _ m

theorem mem_mapDelete (k : String) (m : Cache) (x : String × CacheEntry)
    (h : x ∈ mapDelete k m) : x ∈ m :=
  List.mem_of_mem_filter h

theorem mapDelete_cons_length (k : String) (p : String × CacheEntry)
    (t : Cache) (h : (p.1 == k) = true) :
    (mapDelete k (p :: t)).length ≤ t.length := by
  unfold mapDelete
  rw [List.filter_cons, if_neg (by simp [h])]
  exact List.length_filter_le _ t

theorem mapDelete_cons_self_of_nodup (p : String × CacheEntry) (t : Cache)
    (hnodup : ((p :: t).map Prod.fst).Nodup) :
    mapDelete p.1 (p :: t) = t := by
  unfold mapDelete
  rw [List.filter_cons, if_neg (by simp)]
  apply List.filter_eq_self.mpr
  intro x hx
  have hnot : p.1 ∉ t.map Prod.fst := by
    rw [List.map_cons, List.nodup_cons] at hnodup
    exact hnodup.1
  simp only [Bool.not_eq_true', beq_eq_false_iff_ne, ne_eq]
  intro hx1
  exact hnot (List.mem_map.mpr ⟨x, hx, hx1⟩)

theorem setCachedSearch_empty_noop (q : String) (now : Nat) (cache : Cache) :
    setCachedSearch q [] now cache = cache := rfl

theorem evictIfFull_at_capacity (p : String × CacheEntry) (t : Cache)
    (hcap : SEARCH_CACHE_LIMIT ≤ (p :: t : Cache).length)
    (hnodup : ((p :: t : Cache).map Prod.fst).Nodup)
    (hp : p.1 ≠ "") :
    evictIfFull (p :: t) = t := by
  have hpb : (p.1 == "") = false := by simpa using hp
  unfold evictIfFull
  rw [if_pos hcap]
  simp only [firstKey, List.head?_cons, Option.map_some', hpb,
    Bool.false_eq_true, if_false]
  exact mapDelete_cons_self_of_nodup p t hnodup

theorem setCachedSearch_full (p : String × CacheEntry) (t : Cache)
    (q : String) (rs : List WebSearchResult) (now : Nat)
    (hlen : (p :: t : Cache).length = SEARCH_CACHE_LIMIT)
    (hnodup : ((p :: t : Cache).map Prod.fst).Nodup)
    (hp : p.1 ≠ "") (hrs : rs ≠ []) :
    setCachedSearch q rs now (p :: t) =
      mapSet q { timestamp := now, results := rs } t := by
  have hne : rs.isEmpty = false := by
    cases rs with
    | nil => exact absurd rfl hrs
    | cons a l => rfl
  unfold setCachedSearch
  rw [hne]
  simp only [Bool.false_eq_true, if_false]
  rw [evictIfFull_at_capacity p t (le_of_eq hlen.symm) hnodup hp]

theorem evictIfFull_subset (c : Cache) :
    ∀ x ∈ evictIfFull c, x ∈ c := by
  unfold evictIfFull
  split
  · split
    · split
      · intro x hx
        exact hx
      · intro x hx
        exact mem_mapDelete _ c x hx
    · intro x hx
      exact hx
  · intro x hx
    exact hx

theorem evictIfFull_length (c : Cache)
    (hwf : c.length ≤ SEARCH_CACHE_LIMIT) (hk : cacheKeysNonempty c) :
    (evictIfFull c).length + 1 ≤ SEARCH_CACHE_LIMIT := by
  unfold evictIfFull
  split
  case isTrue hcap =>
    cases c with
    | nil => exact absurd hcap (by decide)
    | cons p t =>
      have hp1 : p.1 ≠ "" := hk p (List.mem_cons_self p t)
      have hpb : (p.1 == "") = false := by simpa using hp1
      simp only [firstKey, List.head?_cons, Option.map_some', hpb,
        Bool.false_eq_true, if_false]
      have h1 : (mapDelete p.1 (p :: t)).length ≤ t.length :=
        mapDelete_cons_length p.1 p t (by simp)
      simp only [List.length_cons] at hwf
      omega
  case isFalse hcap => omega

theorem getCachedSearch_miss (q : String) (now : Nat) (cache : Cache)
    (h : mapGet q cache = none) :
    getCachedSearch q now cache = (none, cache) := by
  unfold getCachedSearch
  rw [h]

theorem getCachedSearch_hit (q : String) (now : Nat) (cache : Cache)
    (e : CacheEntry) (hget : mapGet q cache = some e)
    (hfresh : now - e.timestamp ≤ SEARCH_TTL_MS) :
    getCachedSearch q now cache = (some e.results, cache) := by
  have hnot : ¬ SEARCH_TTL_MS < now - e.timestamp := by omega
  unfold getCachedSearch
  rw [hget]
  simp [hnot]

theorem getCachedSearch_expired (q : String) (now : Nat) (cache : Cache)
    (e : CacheEntry) (hget : mapGet q cache = some e)
    (hold : SEARCH_TTL_MS < now - e.timestamp) :
    getCachedSearch q now cache = (none, mapDelete q cache) := by
  unfold getCachedSearch
  rw [hget]
  simp [hold]

theorem mapGet_setCachedSearch_self (q : String) (rs : List WebSearchResult)
    (now : Nat) (cache : Cache) (hrs : rs ≠ []) :
    mapGet q (setCachedSearch q rs now cache) =
      some { timestamp := now, results := rs } := by
  have hne : rs.isEmpty = false := by
    cases rs with
    | nil => exact absurd rfl hrs
    | cons a l => rfl
  unfold setCachedSearch
  rw [hne]
  simp only [Bool.false_eq_true, if_false]
  exact mapGet_mapSet_self q _ _

theorem getCached_preserves (q : String) (now : Nat) (c : Cache)
    (hwf : cacheWellFormed c) (hk : cacheKeysNonempty c) :
    cacheWellFormed (getCachedSearch q now c).2 ∧
      cacheKeysNonempty (getCachedSearch q now c).2 := by
  cases hget : mapGet q c with
  | none =>
    rw [getCachedSearch_miss q now c hget]
    exact ⟨hwf, hk⟩
  | some e =>
    by_cases hexp : SEARCH_TTL_MS < now - e.timestamp
    · rw [getCachedSearch_expired q now c e hget hexp]
      refine ⟨⟨le_trans (mapDelete_length_le q c) hwf.1, ?_⟩, ?_⟩
      · intro p hp
        exact hwf.2 p (mem_mapDelete q c p hp)
      · intro p hp
        exact hk p (mem_mapDelete q c p hp)
    · rw [getCachedSearch_hit q now c e hget (by omega)]
      exact ⟨hwf, hk⟩

theorem setCached_preserves (q : String) (rs : List WebSearchResult)
    (now : Nat) (c : Cache) (hq : q ≠ "")
    (hwf : cacheWellFormed c) (hk : cacheKeysNonempty c) :
    cacheWellFormed (setCachedSearch q rs now c) ∧
      cacheKeysNonempty (setCachedSearch q rs now c) := by
  unfold setCachedSearch
  cases hne : rs.isEmpty with
  | true => exact ⟨hwf, hk⟩
  | false =>
    have hrs : rs ≠ [] := by
      cases rs with
      | nil => simp at hne
      | cons a l => exact List.cons_ne_nil a l
    simp only [Bool.false_eq_true, if_false]
    have hlen2 := evictIfFull_length c hwf.1 hk
    have hsub := evictIfFull_subset c
    refine ⟨⟨?_, ?_⟩, ?_⟩
    · have h3 := mapSet_length_le q { timestamp := now, results := rs }
        (evictIfFull c)
      omega
    · intro p hp
      rcases mem_mapSet q _ (evictIfFull c) p hp with h1 | h1
      · rw [h1]
        exact hrs
      · exact hwf.2 p (hsub p h1)
    · intro p hp
      rcases mem_mapSet q _ (evictIfFull c) p hp with h1 | h1
      · rw [h1]
        exact hq
      · exact hk p (hsub p h1)

theorem applyOps_preserves (ops : List CacheOp) :
    ∀ c, (∀ op ∈ ops, opQuery op ≠ "") →
      cacheWellFormed c → cacheKeysNonempty c →
      cacheWellFormed (applyOps ops c) ∧ cacheKeysNonempty (applyOps ops c) := by
  induction ops with
  | nil =>
    intro c _ hwf hk
    exact ⟨hwf, hk⟩
  | cons op rest ih =>
    intro c hops hwf hk
    have hstep : cacheWellFormed (applyOp c op) ∧
        cacheKeysNonempty (applyOp c op) := by
      cases op with
      | get q now => exact getCached_preserves q now c hwf hk
      | put q rs now =>
        exact setCached_preserves q rs now c
          (hops _ (List.mem_cons_self _ _)) hwf hk
    exact ih (applyOp c op)
      (fun o ho => hops o (List.mem_cons_of_mem _ ho)) hstep.1 hstep.2

set_option maxRecDepth 8000

/-- C7 counterexample: the claim says the store never exceeds its
capacity bound after every sequence of get/put operations, with put a
no-op on empty results only. `exFloodOps` is a sequence of 51 puts, all
with non-empty result sets, after which the store holds 51 entries —
above `SEARCH_CACHE_LIMIT = 50` — because the eviction guard
`if (firstKey)` in the source is falsy for the oldest key `""` and skips
the eviction. -/
theorem C7_counterexample :
    (exFloodOps.all (fun op =>
      match op with
      | CacheOp.put _ rs _ => !rs.isEmpty
      | CacheOp.get _ _ => false) = true) ∧
    (applyOps exFloodOps []).length = SEARCH_CACHE_LIMIT + 1 ∧
    ¬ cacheWellFormed (applyOps exFloodOps []) := by
  refine ⟨by decide, by decide, by decide⟩

/-- C7 (amended): `put` of an empty result set is a no-op; after every
sequence of get/put operations whose query keys are non-empty strings —
which covers every operation the program issues, since only non-empty
questions are ever cached — the store keeps no empty result set and never
exceeds `SEARCH_CACHE_LIMIT`; and a `put` of non-empty results into a
store at capacity whose oldest key is non-empty evicts exactly the single
oldest-inserted entry (insertion-order FIFO) before inserting. The
non-empty-key proviso is forced by the counterexample: an oldest key `""`
is falsy in the eviction guard and is not evicted. -/
theorem C7_cache_invariants :
    (∀ q now cache, setCachedSearch q [] now cache = cache) ∧
    (∀ ops : List CacheOp, (∀ op ∈ ops, opQuery op ≠ "") →
      cacheWellFormed (applyOps ops [])) ∧
    (∀ (p : String × CacheEntry) (t : Cache) q rs now,
      (p :: t : Cache).length = SEARCH_CACHE_LIMIT →
      ((p :: t : Cache).map Prod.fst).Nodup →
      p.1 ≠ "" → rs ≠ [] →
      setCachedSearch q rs now (p :: t) =
        mapSet q { timestamp := now, results := rs } t) := by
  refine ⟨setCachedSearch_empty_noop, ?_, setCachedSearch_full⟩
  intro ops hops
  refine (applyOps_preserves ops [] hops ⟨?_, ?_⟩ ?_).1
  · exact Nat.zero_le _
  · intro p hp
    exact absurd hp (List.not_mem_nil p)
  · intro p hp
    exact absurd hp (List.not_mem_nil p)

/-- C7 witness: the amended invariants at concrete inputs — a no-op empty
put, a benign op sequence, and an eviction on a concrete full store. -/
theorem C7_witness :
    setCachedSearch exNewsQ [] 0 [] = [] ∧
    cacheWellFormed (applyOps exGoodOps []) ∧
    setCachedSearch exNewsQ [exResult] 7 (exHeadEntry :: exTailCache) =
      mapSet exNewsQ { timestamp := 7, results := [exResult] } exTailCache := by
  refine ⟨C7_cache_invariants.1 exNewsQ 0 [],
    C7_cache_invariants.2.1 exGoodOps (by decide),
    C7_cache_invariants.2.2 exHeadEntry exTailCache exNewsQ [exResult] 7
      (by decide) (by decide) (by decide) (by decide)⟩

/-- C8: a lookup returns stored results only when `now - storedTime` is
at most the TTL; once the TTL has elapsed the lookup returns `none` even
though the entry was never evicted by capacity, and the lookup itself
removes the expired entry from the store. -/
theorem C8_ttl_expiry (q : String) (now : Nat) (cache : Cache) :
    (∀ rs, (getCachedSearch q now cache).1 = some rs →
      ∃ e, mapGet q cache = some e ∧ rs = e.results ∧
        now - e.timestamp ≤ SEARCH_TTL_MS) ∧
    (∀ e, mapGet q cache = some e → SEARCH_TTL_MS < now - e.timestamp →
      getCachedSearch q now cache = (none, mapDelete q cache) ∧
      mapGet q (getCachedSearch q now cache).2 = none) := by
  constructor
  · intro rs hrs
    cases hget : mapGet q cache with
    | none =>
      rw [getCachedSearch_miss q now cache hget] at hrs
      exact absurd hrs (by simp)
    | some e =>
      by_cases hexp : SEARCH_TTL_MS < now - e.timestamp
      · rw [getCachedSearch_expired q now cache e hget hexp] at hrs
        exact absurd hrs (by simp)
      · rw [getCachedSearch_hit q now cache e hget (by omega)] at hrs
        refine ⟨e, rfl, ?_, by omega⟩
        have : some e.results = some rs := hrs
        exact (Option.some_injective _ this).symm
  · intro e hget hexp
    refine ⟨getCachedSearch_expired q now cache e hget hexp, ?_⟩
    rw [getCachedSearch_expired q now cache e hget hexp]
    exact mapGet_mapDelete_self q cache

/-- C8 witness: a fresh lookup at time 100 returns the stored entry; the
same entry, 300001 ms after storage (TTL is 300000 ms), is reported
absent and removed. -/
theorem C8_witness :
    (∃ e, mapGet exNewsQ exExpiredCache = some e ∧ [exResult] = e.results ∧
      100 - e.timestamp ≤ SEARCH_TTL_MS) ∧
    (getCachedSearch exNewsQ 300001 exExpiredCache =
        (none, mapDelete exNewsQ exExpiredCache) ∧
      mapGet exNewsQ (getCachedSearch exNewsQ 300001 exExpiredCache).2 = none) :=
  ⟨(C8_ttl_expiry exNewsQ 100 exExpiredCache).1 [exResult] (by decide),
   (C8_ttl_expiry exNewsQ 300001 exExpiredCache).2
     { timestamp := 0, results := [exResult] } (by decide) (by decide)⟩

/-- C10: when the store is at capacity and `put` receives non-empty
results for a key that is already present (and is not the oldest entry),
the single oldest-inserted entry is still evicted before the in-place
overwrite, so the put removes an unrelated entry and leaves the store
strictly below its capacity bound. The oldest key is assumed non-empty,
which holds for every key the program stores. -/
theorem C10_overwrite_still_evicts (p : String × CacheEntry) (t : Cache)
    (q : String) (rs : List WebSearchResult) (now : Nat)
    (hlen : (p :: t : Cache).length = SEARCH_CACHE_LIMIT)
    (hnodup : ((p :: t : Cache).map Prod.fst).Nodup)
    (hp : p.1 ≠ "") (hq : q ∈ t.map Prod.fst) (hrs : rs ≠ []) :
    mapGet p.1 (setCachedSearch q rs now (p :: t)) = none ∧
    (setCachedSearch q rs now (p :: t)).length = SEARCH_CACHE_LIMIT - 1 := by
  rw [setCachedSearch_full p t q rs now hlen hnodup hp hrs]
  have hnotmem : p.1 ∉ t.map Prod.fst := by
    rw [List.map_cons, List.nodup_cons] at hnodup
    exact hnodup.1
  have hqp : p.1 ≠ q := by
    intro h
    exact hnotmem (h ▸ hq)
  constructor
  · rw [mapGet_mapSet_ne p.1 q _ t hqp]
    exact mapGet_eq_none_of_not_mem_keys hnotmem
  · have hany : t.any (fun r => r.1 == q) = true := by
      rcases List.mem_map.mp hq with ⟨x, hx, hx1⟩
      exact List.any_eq_true.mpr ⟨x, hx, by simp [hx1]⟩
    unfold mapSet
    rw [if_pos hany, List.length_map]
    simp only [List.length_cons] at hlen
    omega

/-- C10 witness: on a concrete full 50-entry store, overwriting the
already-present key k7 evicts the oldest key k0 and leaves 49 entries. -/
theorem C10_witness :
    mapGet exHeadEntry.1
        (setCachedSearch (numKey 7) [exResult] 9 (exHeadEntry :: exTailCache)) = none ∧
    (setCachedSearch (numKey 7) [exResult] 9 (exHeadEntry :: exTailCache)).length =
      SEARCH_CACHE_LIMIT - 1 :=
  C10_overwrite_still_evicts exHeadEntry exTailCache (numKey 7) [exResult] 9
    (by decide) (by decide) (by decide) (by decide) (by decide)

theorem getWeb_gates_open_hit (env : Env) (q : String) (now : Nat)
    (cache : Cache) (rs : List WebSearchResult)
    (hb : env.bingConfigured = true) (hne : q ≠ "")
    (hsafe : isSearchSafe q = true) (htrig : shouldUseWebSearch q = true)
    (hhit : (getCachedSearch q now cache).1 = some rs) :
    getWebResultsForQuestion env q now cache =
      { results := rs, cache := (getCachedSearch q now cache).2,
        netCalls := 0 } := by
  have hqb : (q == "") = false := by simpa using hne
  unfold getWebResultsForQuestion
  rw [hb, hsafe, htrig]
  simp only [Bool.not_true, Bool.false_eq_true, if_false, hqb,
    Bool.or_self, hhit]

theorem getWeb_gates_open_miss (env : Env) (q : String) (now : Nat)
    (cache : Cache)
    (hb : env.bingConfigured = true) (hne : q ≠ "")
    (hsafe : isSearchSafe q = true) (htrig : shouldUseWebSearch q = true)
    (hmiss : (getCachedSearch q now cache).1 = none)
    (hres : performWebSearch env q ≠ []) :
    getWebResultsForQuestion env q now cache =
      { results := performWebSearch env q,
        cache := setCachedSearch q (performWebSearch env q) now
          (getCachedSearch q now cache).2,
        netCalls := 1 } := by
  have hqb : (q == "") = false := by simpa using hne
  have hresb : (performWebSearch env q).isEmpty = false := by
    cases hcase : performWebSearch env q with
    | nil => exact absurd hcase hres
    | cons a l => rfl
  unfold getWebResultsForQuestion
  rw [hb, hsafe, htrig]
  simp only [Bool.not_true, Bool.false_eq_true, if_false, hqb,
    Bool.or_self, hmiss, hresb, Bool.not_false, if_true]

/-- C5 counterexample: the claim lists PIN among the blocklist terms, but
the source blocklist carries only the two-word term `pin code`; the
question `what is my pin` contains `pin` (case-insensitively), yet
`isSearchSafe` classifies it as safe and — because it carries the trigger
`what is` — one network search call is issued for it. -/
theorem C5_counterexample :
    anyIncl (strLower exPinQuestion) claimedBlocklist = true ∧
    isSearchSafe exPinQuestion = true ∧
    (getWebResultsForQuestion exSearchEnv exPinQuestion 0 []).netCalls = 1 := by
  refine ⟨by decide, by decide, by decide⟩

/-- C5 (amended): for every question containing (case-insensitively) any
term of the source blocklist — password, passcode, social security, ssn,
credit card, card number, cvv, pin code — `isSearchSafe` is false and
`getWebResultsForQuestion` returns no results, issues zero network calls
and leaves the cache untouched, for every environment: the result is
independent of the search provider. -/
theorem C5_blocklist_suppresses_search (q : String)
    (h : sensitiveBlocklist.any (fun t => includes (strLower q) t) = true) :
    isSearchSafe q = false ∧
    ∀ env now cache, getWebResultsForQuestion env q now cache =
      { results := [], cache := cache, netCalls := 0 } := by
  have hsafe : isSearchSafe q = false := by
    unfold isSearchSafe
    rw [h]
    rfl
  refine ⟨hsafe, ?_⟩
  intro env now cache
  unfold getWebResultsForQuestion
  cases hb : env.bingConfigured with
  | false => rfl
  | true =>
    rw [hsafe]
    simp only [Bool.not_true, Bool.false_eq_true, if_false, Bool.not_false,
      Bool.or_true, if_true]

/-- C5 witness: a password question is suppressed under a configured
search environment. -/
theorem C5_witness :
    isSearchSafe exPwdQuestion = false ∧
    getWebResultsForQuestion exSearchEnv exPwdQuestion 0 [] =
      { results := [], cache := [], netCalls := 0 } :=
  ⟨(C5_blocklist_suppresses_search exPwdQuestion (by decide)).1,
   (C5_blocklist_suppresses_search exPwdQuestion (by decide)).2
     exSearchEnv 0 []⟩

/-- C9 counterexample: the claim promises that repeating an identical
searchable lookup within the TTL never adds a network call; but when the
provider returns no results, nothing is cached (no negative caching), so
the identical second lookup issues a second network call. -/
theorem C9_counterexample :
    (getWebResultsForQuestion exSearchEnv exNewsQ 0 []).netCalls = 1 ∧
    (getWebResultsForQuestion exSearchEnv exNewsQ 1
        (getWebResultsForQuestion exSearchEnv exNewsQ 0 []).cache).netCalls
      = 1 := by
  refine ⟨by decide, by decide⟩

/-- C9 (amended): when the first lookup is a genuine cache miss that
obtains a non-empty result set from the provider, the identical lookup
within the TTL issues zero further network calls and returns the cached
results; if the provider returns nothing, no negative caching happens and
the repeat hits the network again (see the counterexample). -/
theorem C9_second_lookup_cached (env : Env) (q : String)
    (now now2 : Nat) (cache : Cache)
    (hb : env.bingConfigured = true)
    (hne : q ≠ "")
    (hsafe : isSearchSafe q = true)
    (htrig : shouldUseWebSearch q = true)
    (hmiss : mapGet q cache = none)
    (hres : performWebSearch env q ≠ [])
    (httl : now2 - now ≤ SEARCH_TTL_MS) :
    (getWebResultsForQuestion env q now cache).netCalls = 1 ∧
    (getWebResultsForQuestion env q now2
        (getWebResultsForQuestion env q now cache).cache).netCalls = 0 ∧
    (getWebResultsForQuestion env q now2
        (getWebResultsForQuestion env q now cache).cache).results =
      performWebSearch env q := by
  have hmiss2 : (getCachedSearch q now cache).1 = none := by
    rw [getCachedSearch_miss q now cache hmiss]
  have h1 := getWeb_gates_open_miss env q now cache hb hne hsafe htrig
    hmiss2 hres
  have hc2 : (getCachedSearch q now cache).2 = cache := by
    rw [getCachedSearch_miss q now cache hmiss]
  rw [hc2] at h1
  have hstored : mapGet q
      (setCachedSearch q (performWebSearch env q) now cache) =
      some { timestamp := now, results := performWebSearch env q } :=
    mapGet_setCachedSearch_self q (performWebSearch env q) now cache hres
  have hhit : (getCachedSearch q now2
      (setCachedSearch q (performWebSearch env q) now cache)).1 =
      some (performWebSearch env q) := by
    rw [getCachedSearch_hit q now2 _ _ hstored (by simpa using httl)]
  have h2 := getWeb_gates_open_hit env q now2
    (setCachedSearch q (performWebSearch env q) now cache)
    (performWebSearch env q) hb hne hsafe htrig hhit
  rw [h1]
  refine ⟨rfl, ?_, ?_⟩
  · rw [h2]
  · rw [h2]

/-- C9 witness: with a provider returning one result, the first lookup of
a searchable question makes one network call and the identical lookup
60 s later makes none, returning the cached results. -/
theorem C9_witness :
    (getWebResultsForQuestion exCachingEnv exNewsQ 0 []).netCalls = 1 ∧
    (getWebResultsForQuestion exCachingEnv exNewsQ 60000
        (getWebResultsForQuestion exCachingEnv exNewsQ 0 []).cache).netCalls
      = 0 ∧
    (getWebResultsForQuestion exCachingEnv exNewsQ 60000
        (getWebResultsForQuestion exCachingEnv exNewsQ 0 []).cache).results
      = performWebSearch exCachingEnv exNewsQ :=
  C9_second_lookup_cached exCachingEnv exNewsQ 0 60000 [] rfl (by decide)
    (by decide) (by decide) rfl (by decide) (by decide)

/-! ## Generator and handler lemmas -/

theorem basicHeuristicAnswer_text_ne (q : String) :
    (basicHeuristicAnswer q).text ≠ "" := by
  dsimp only [basicHeuristicAnswer]
  split_ifs <;> decide

theorem generateAuroraAnswer_shape (env : Env) (ctx : GenContext) :
    generateAuroraAnswer env ctx =
      basicHeuristicAnswer (effectiveQuestion ctx) ∨
    (∃ c, c ≠ "" ∧ generateAuroraAnswer env ctx =
      { text := c, confidence := some 0.92,
        sources :=
          if !ctx.webResults.isEmpty then some (ctx.webResults.take 4)
          else none,
        usedSearch := some (!ctx.webResults.isEmpty) }) := by
  cases hk : env.openAiKey with
  | none => exact Or.inl (by simp only [generateAuroraAnswer, hk])
  | some k =>
    cases hl : env.llmContent with
    | none => exact Or.inl (by simp only [generateAuroraAnswer, hk, hl])
    | some content =>
      by_cases hc : (content == "") = true
      · exact Or.inl (by simp only [generateAuroraAnswer, hk, hl, if_pos hc])
      · exact Or.inr ⟨content, by simpa using hc,
          by simp only [generateAuroraAnswer, hk, hl, if_neg hc]⟩

theorem handler_post (env : Env) (req : Req) (cache : Cache)
    (hpost : req.method = "POST") :
    handler env req cache =
      match handlerInner env req cache with
      | .ok out => out
      | .error _ => (fallbackEnvelope, cache) := by
  unfold handler
  rw [hpost]
  rfl

theorem reqMessages_some (req : Req) (ms : List ChatMessage)
    (h : reqMessages req = some ms) :
    ∃ b, parseBody req.body = Except.ok (some b) ∧ b.messages = some ms := by
  unfold reqMessages at h
  cases hp : parseBody req.body with
  | error e =>
    rw [hp] at h
    exact absurd h (by simp)
  | ok v =>
    rw [hp] at h
    cases v with
    | none => simp at h
    | some b => exact ⟨b, rfl, h⟩

theorem handlerInner_valid (env : Env) (req : Req) (cache : Cache)
    (ms : List ChatMessage) (b : ChatRequestBody)
    (hparse : parseBody req.body = Except.ok (some b))
    (hm : b.messages = some ms) (hne : ms ≠ []) :
    handlerInner env req cache = Except.error () ∨
    handlerInner env req cache =
      Except.ok (handleValidBody env b ms cache) := by
  have hb : ms.isEmpty = false := by
    cases ms with
    | nil => exact absurd rfl hne
    | cons a l => rfl
  unfold handlerInner
  rw [hparse]
  simp only [hm, hb, Bool.false_eq_true, if_false]
  cases hf : env.fault with
  | true => exact Or.inl (by rw [if_pos rfl])
  | false => exact Or.inr (by rw [if_neg (by simp)])

theorem handlerInner_invalid (env : Env) (req : Req) (cache : Cache)
    (hmsgs : reqMessages req = none)
    (hnotmal : req.body ≠ ReqBody.malformedStr) :
    handlerInner env req cache = Except.ok (badRequestResponse, cache) := by
  obtain ⟨method, body⟩ := req
  cases body with
  | malformedStr => exact absurd rfl hnotmal
  | parsedStr v =>
    cases v with
    | none => rfl
    | some b =>
      have hm : b.messages = none := by
        simpa [reqMessages, parseBody] using hmsgs
      simp [handlerInner, parseBody, hm]
  | direct v =>
    cases v with
    | none => rfl
    | some b =>
      have hm : b.messages = none := by
        simpa [reqMessages, parseBody] using hmsgs
      simp [handlerInner, parseBody, hm]

theorem handlerInner_empty_msgs (env : Env) (req : Req) (cache : Cache)
    (hmsgs : reqMessages req = some ([] : List ChatMessage)) :
    handlerInner env req cache = Except.ok (badRequestResponse, cache) := by
  obtain ⟨b, hparse, hm⟩ := reqMessages_some req [] hmsgs
  unfold handlerInner
  rw [hparse]
  simp [hm]

theorem handlerInner_malformed (env : Env) (req : Req) (cache : Cache)
    (h : req.body = ReqBody.malformedStr) :
    handlerInner env req cache = Except.error () := by
  unfold handlerInner
  rw [h]
  rfl

theorem handleValidBody_shape (env : Env) (b : ChatRequestBody)
    (ms : List ChatMessage) (cache : Cache) :
    ∃ ctx live c2, handleValidBody env b ms cache =
      (successEnvelope (generateAuroraAnswer env ctx) live, c2) := by
  unfold handleValidBody
  exact ⟨_, _, _, rfl⟩

/-- C6: without a language-model credential, the generated answer is
exactly the heuristic responder applied to the effective question; a
question whose lowercase form contains budget gets the budget paragraph;
one containing none of the known keywords gets the generic paragraph; and
a heuristic answer always has confidence 0.78 and neither sources nor a
usedSearch flag (which the handler serializes as sources = [] and
usedSearch = false). -/
theorem C6_no_key_heuristic (env : Env) (ctx : GenContext) (q : String)
    (hkey : env.openAiKey = none) :
    generateAuroraAnswer env ctx =
      basicHeuristicAnswer (effectiveQuestion ctx) ∧
    (anyIncl (strLower q) ["budget"] = true →
      (basicHeuristicAnswer q).text = heuristicBudgetText) ∧
    (heuristicKeywords.all (fun k => !includes (strLower q) k) = true →
      (basicHeuristicAnswer q).text = heuristicGenericText) ∧
    (basicHeuristicAnswer q).confidence = some 0.78 ∧
    (basicHeuristicAnswer q).sources = none ∧
    (basicHeuristicAnswer q).usedSearch = none := by
  refine ⟨?_, ?_, ?_, rfl, rfl, rfl⟩
  · unfold generateAuroraAnswer
    rw [hkey]
  · intro hb
    have hb2 : includes (strLower q) "budget" = true := by
      simpa [anyIncl] using hb
    have hcond : anyIncl (strLower q) ["budget", "spend"] = true := by
      simp [anyIncl, hb2]
    dsimp only [basicHeuristicAnswer]
    rw [if_pos hcond]
  · intro hall
    simp only [heuristicKeywords, List.all_cons, List.all_nil,
      Bool.and_eq_true, Bool.not_eq_true'] at hall
    obtain ⟨h1, h2, h3, h4, h5, h6, h7, h8, h9, h10, -⟩ := hall
    dsimp only [basicHeuristicAnswer]
    rw [if_neg (by simp [anyIncl, h1, h2]),
      if_neg (by simp [anyIncl, h3, h4]),
      if_neg (by simp [anyIncl, h5, h6, h7]),
      if_neg (by simp [anyIncl, h8, h9]),
      if_neg (by simp [anyIncl, h10])]

/-- C6 witness: with no credential, a concrete budget question is
answered by the heuristic budget paragraph with confidence 0.78. -/
theorem C6_witness :
    generateAuroraAnswer exAnyEnv exCtx =
      basicHeuristicAnswer (effectiveQuestion exCtx) ∧
    (basicHeuristicAnswer exBudgetQ).text = heuristicBudgetText ∧
    (basicHeuristicAnswer exBudgetQ).confidence = some 0.78 := by
  have h := C6_no_key_heuristic exAnyEnv exCtx exBudgetQ rfl
  exact ⟨h.1, h.2.1 (by decide), h.2.2.2.1⟩

/-- C1: every POST request whose (possibly JSON-parsed) body carries a
non-empty messages array is answered with HTTP status 200, a non-empty
text and a confidence within [0, 1] — for every environment, including
one in which every upstream dependency fails or the processing throws
unexpectedly: exactly one answer is always produced. -/
theorem C1_valid_request_always_answered (env : Env) (req : Req)
    (cache : Cache) (ms : List ChatMessage)
    (hpost : req.method = "POST")
    (hmsgs : reqMessages req = some ms) (hne : ms ≠ []) :
    (handler env req cache).1.status = 200 ∧
    (∃ t, (handler env req cache).1.body.text = some t ∧ t ≠ "") ∧
    (∃ c, (handler env req cache).1.body.confidence = some c ∧
      0 ≤ c ∧ c ≤ 1) := by
  obtain ⟨b, hparse, hm⟩ := reqMessages_some req ms hmsgs
  rw [handler_post env req cache hpost]
  rcases handlerInner_valid env req cache ms b hparse hm hne with herr | hok
  · rw [herr]
    refine ⟨rfl, ⟨(basicHeuristicAnswer emptyQuestion).text, rfl,
      basicHeuristicAnswer_text_ne emptyQuestion⟩,
      ⟨0.78, rfl, by norm_num, by norm_num⟩⟩
  · rw [hok]
    obtain ⟨ctx, live, c2, hshape⟩ := handleValidBody_shape env b ms cache
    rw [hshape]
    rcases generateAuroraAnswer_shape env ctx with hgen | ⟨c, hc, hgen⟩
    · rw [hgen]
      refine ⟨rfl, ⟨(basicHeuristicAnswer (effectiveQuestion ctx)).text, rfl,
        basicHeuristicAnswer_text_ne (effectiveQuestion ctx)⟩,
        ⟨0.78, rfl, by norm_num, by norm_num⟩⟩
    · rw [hgen]
      exact ⟨rfl, ⟨c, rfl, hc⟩, ⟨0.92, rfl, by norm_num, by norm_num⟩⟩

/-- C1 witness: the always-answer guarantee at a concrete credential-free
environment and a concrete one-message POST request. -/
theorem C1_witness :
    (handler exAnyEnv exValidReq []).1.status = 200 ∧
    (∃ t, (handler exAnyEnv exValidReq []).1.body.text = some t ∧ t ≠ "") ∧
    (∃ c, (handler exAnyEnv exValidReq []).1.body.confidence = some c ∧
      0 ≤ c ∧ c ≤ 1) :=
  C1_valid_request_always_answered exAnyEnv exValidReq []
    [{ role := "user", text := "hello" }] rfl rfl (by decide)

/-- C4: in every envelope the handler returns for a valid request, the
usedSearch flag is present and is true exactly when the sources array is
present and non-empty. -/
theorem C4_usedSearch_iff_sources (env : Env) (req : Req) (cache : Cache)
    (ms : List ChatMessage)
    (hpost : req.method = "POST")
    (hmsgs : reqMessages req = some ms) (hne : ms ≠ []) :
    ∃ s u, (handler env req cache).1.body.sources = some s ∧
      (handler env req cache).1.body.usedSearch = some u ∧
      (u = true ↔ s ≠ []) := by
  obtain ⟨b, hparse, hm⟩ := reqMessages_some req ms hmsgs
  rw [handler_post env req cache hpost]
  rcases handlerInner_valid env req cache ms b hparse hm hne with herr | hok
  · rw [herr]
    exact ⟨[], false, rfl, rfl, by simp⟩
  · rw [hok]
    obtain ⟨ctx, live, c2, hshape⟩ := handleValidBody_shape env b ms cache
    rw [hshape]
    rcases generateAuroraAnswer_shape env ctx with hgen | ⟨c, hc, hgen⟩
    · rw [hgen]
      exact ⟨[], false, rfl, rfl, by simp⟩
    · rw [hgen]
      cases hw : ctx.webResults with
      | nil => exact ⟨[], false, rfl, rfl, by simp⟩
      | cons a l =>
        refine ⟨(a :: l).take 4, true, rfl, rfl, ?_⟩
        simp

/-- C4 witness: the flag-source agreement at a concrete request and
environment. -/
theorem C4_witness :
    ∃ s u, (handler exAnyEnv exValidReq []).1.body.sources = some s ∧
      (handler exAnyEnv exValidReq []).1.body.usedSearch = some u ∧
      (u = true ↔ s ≠ []) :=
  C4_usedSearch_iff_sources exAnyEnv exValidReq []
    [{ role := "user", text := "hello" }] rfl rfl (by decide)

/-- C2 counterexample: the claim says the catch-all answer carries
confidence lowered to 0.7; in the code `fallback.confidence ?? 0.7` never
uses the default because `basicHeuristicAnswer` always sets 0.78, so the
faulting request below is answered with fallback: true and confidence
0.78, which differs from 0.7. -/
theorem C2_counterexample :
    (handler exEnvFault exValidReq []).1.status = 200 ∧
    (handler exEnvFault exValidReq []).1.body.fallback = some true ∧
    (handler exEnvFault exValidReq []).1.body.confidence = some 0.78 ∧
    (0.78 : ℚ) ≠ 0.7 := by
  refine ⟨rfl, rfl, rfl, by norm_num⟩

/-- C2 (amended): whenever an unexpected failure escapes the inner steps
of a POST request, the handler responds HTTP 200 with the envelope built
from the Heuristic Responder on the empty question — the generic
paragraph — a fallback: true marker, empty sources, usedSearch false and
confidence 0.78 (the heuristic confidence; the 0.7 default in
`fallback.confidence ?? 0.7` would apply only if the heuristic carried no
confidence). -/
theorem C2_catch_all_fallback (env : Env) (req : Req) (cache : Cache)
    (hpost : req.method = "POST")
    (herr : handlerInner env req cache = Except.error ()) :
    (handler env req cache).1 = fallbackEnvelope ∧
    fallbackEnvelope.status = 200 ∧
    fallbackEnvelope.body.text =
      some (basicHeuristicAnswer emptyQuestion).text ∧
    fallbackEnvelope.body.text = some heuristicGenericText ∧
    fallbackEnvelope.body.confidence = some 0.78 ∧
    fallbackEnvelope.body.fallback = some true ∧
    fallbackEnvelope.body.sources = some [] ∧
    fallbackEnvelope.body.usedSearch = some false := by
  refine ⟨?_, rfl, rfl, rfl, rfl, rfl, rfl, rfl⟩
  rw [handler_post env req cache hpost, herr]

/-- C2 witness: the catch-all envelope at a concrete faulting request. -/
theorem C2_witness :
    (handler exEnvFault exValidReq []).1 = fallbackEnvelope ∧
    fallbackEnvelope.status = 200 ∧
    fallbackEnvelope.body.text =
      some (basicHeuristicAnswer emptyQuestion).text ∧
    fallbackEnvelope.body.text = some heuristicGenericText ∧
    fallbackEnvelope.body.confidence = some 0.78 ∧
    fallbackEnvelope.body.fallback = some true ∧
    fallbackEnvelope.body.sources = some [] ∧
    fallbackEnvelope.body.usedSearch = some false :=
  C2_catch_all_fallback exEnvFault exValidReq [] rfl rfl

/-- C3 counterexample: a POST whose string body is not valid JSON is NOT
rejected with a 4xx status — the JSON.parse exception lands in the
catch-all, which answers HTTP 200 with a success-shaped fallback envelope
(no error field, a non-empty canned text). -/
theorem C3_counterexample :
    (handler exAnyEnv exBadJsonReq []).1.status = 200 ∧
    (handler exAnyEnv exBadJsonReq []).1.body.error = none ∧
    (handler exAnyEnv exBadJsonReq []).1.body.text =
      some heuristicGenericText ∧
    (handler exAnyEnv exBadJsonReq []).1.body.fallback = some true := by
  refine ⟨rfl, rfl, rfl, rfl⟩

/-- C3 (amended): a POST whose body is missing or null, whose messages
field is missing or not an array, or whose messages list is empty is
rejected with HTTP 400 and the machine-readable reason
`Invalid request body: missing messages`; but a string body on which
JSON.parse throws is instead answered by the catch-all with an HTTP 200
success-shaped fallback envelope. -/
theorem C3_input_validation (env : Env) (req : Req) (cache : Cache)
    (hpost : req.method = "POST") :
    (reqMessages req = none → req.body ≠ ReqBody.malformedStr →
      (handler env req cache).1 = badRequestResponse) ∧
    (reqMessages req = some [] →
      (handler env req cache).1 = badRequestResponse) ∧
    (req.body = ReqBody.malformedStr →
      (handler env req cache).1 = fallbackEnvelope) ∧
    badRequestResponse.status = 400 ∧
    badRequestResponse.body.error = some invalidBodyMsg ∧
    badRequestResponse.body.text = none := by
  refine ⟨?_, ?_, ?_, rfl, rfl, rfl⟩
  · intro hmsgs hnotmal
    rw [handler_post env req cache hpost,
      handlerInner_invalid env req cache hmsgs hnotmal]
  · intro hmsgs
    rw [handler_post env req cache hpost,
      handlerInner_empty_msgs env req cache hmsgs]
  · intro hmal
    rw [handler_post env req cache hpost,
      handlerInner_malformed env req cache hmal]

/-- C3 witness: a POST with an empty messages array is answered with the
400 envelope. -/
theorem C3_witness :
    (handler exAnyEnv exEmptyMsgsReq []).1 = badRequestResponse :=
  (C3_input_validation exAnyEnv exEmptyMsgsReq [] rfl).2.1 rfl
